import Mathlib

/-!
Shallow embedding of the azonk authentication core (`internal/auth`,
`internal/types`, `internal/config`) and of the Microsoft Graph pagination
client (`internal/graph/client.go`), together with theorems settling the
spec claims about them.

Time is modelled in whole seconds: absolute instants are `Nat` (for the poll
loop) or `Int` (Unix timestamps for token expiry).  HTTP exchanges are
modelled by traces: a list of per-request outcomes consumed in order, one
per request the code issues.
-/

namespace Azonk

/-- From `internal/config/config.go`: base URL for Microsoft Graph API v1.0. -/
def graphBaseURL : String := "https://graph.microsoft.com/v1.0"

/-! ### Data model (`internal/types/types.go`) -/

/-- Model of `types.TokenResponse`: OAuth tokens returned from the identity platform.
`expiresAt` is the computed absolute expiration, in Unix seconds. -/
structure TokenResponse where
  accessToken : String
  refreshToken : String
  tokenType : String
  expiresIn : String
  expiresOn : String
  resource : String
  scope : String
  expiresAt : Int
  deriving Repr, DecidableEq

/-- Model of `types.DeviceCodeResponse`: device code flow initiation response. -/
structure DeviceCodeResponse where
  deviceCode : String
  userCode : String
  verificationURL : String
  verificationURI : String
  expiresIn : String
  interval : String
  message : String
  deriving Repr, DecidableEq

/-- From `types.go` lines 36-42: `GetVerificationURL` returns the verification URL
from either the v1.0 or the v2.0 field. -/
def DeviceCodeResponse.getVerificationURL (d : DeviceCodeResponse) : String :=
  if d.verificationURL ≠ "" then d.verificationURL else d.verificationURI

/-! ### String helpers

`strings.Contains` from the Go standard library, modelled on the character
lists underlying `String`. -/

/-- Substring scan built on `List.isPrefixOf`: does `pat` occur inside `s`? -/
def hasSubstr (pat : List Char) : List Char → Bool
  | [] => pat.isEmpty
  | c :: t => pat.isPrefixOf (c :: t) || hasSubstr pat t

/-- Go `strings.Contains s pat`. -/
def strContains (s pat : String) : Bool :=
  hasSubstr pat.data s.data

theorem isPrefixOf_append_self (l r : List Char) : l.isPrefixOf (l ++ r) = true := by
  induction l with
  | nil => simp [List.isPrefixOf]
  | cons a as ih => simp [List.isPrefixOf, ih]

theorem hasSubstr_of_isPrefixOf (pat s : List Char) (h : pat.isPrefixOf s = true) :
    hasSubstr pat s = true := by
  cases s with
  | nil =>
    cases pat with
    | nil => rfl
    | cons a as => simp [List.isPrefixOf] at h
  | cons c t => simp [hasSubstr, h]

theorem data_append (s t : String) : (s ++ t).data = s.data ++ t.data := by
  cases s; cases t; rfl

/-- A string that starts with `pat` contains `pat`. -/
theorem strContains_of_append (pat rest : String) :
    strContains (pat ++ rest) pat = true := by
  unfold strContains
  rw [data_append]
  exact hasSubstr_of_isPrefixOf _ _ (isPrefixOf_append_self _ _)

/-! ### `fmt.Sscanf(s, "%d", &v)` model (`internal/auth/auth.go` helpers)

Go's `Sscanf` with a single `%d` verb skips leading whitespace, then reads an
optional sign followed by decimal digits.  It reports an error (leaving the
target variable at zero) when no digits follow. -/

/-- Decimal value of a digit list (most significant first). -/
def digitsVal (ds : List Char) : Nat :=
  ds.foldl (fun acc c => acc * 10 + (c.toNat - 48)) 0

/-- Leading-`%d` scan: `some v` on success, `none` when `Sscanf` errors. -/
def sscanfD (s : String) : Option Int :=
  let cs := s.data.dropWhile (fun c => c = ' ' || c = '\t' || c = '\n' || c = '\r')
  match cs with
  | '-' :: rest =>
    let ds := rest.takeWhile Char.isDigit
    if ds.isEmpty then none else some (-(digitsVal ds : Int))
  | '+' :: rest =>
    let ds := rest.takeWhile Char.isDigit
    if ds.isEmpty then none else some (digitsVal ds : Int)
  | _ =>
    let ds := cs.takeWhile Char.isDigit
    if ds.isEmpty then none else some (digitsVal ds : Int)

/-- From `auth.go` lines 323-329: `parseIntOrDefault` returns the scanned value,
or `defaultVal` when scanning fails or yields a non-positive value. -/
def parseIntOrDefault (s : String) (defaultVal : Int) : Int :=
  match sscanfD s with
  | none => defaultVal
  | some val => if val ≤ 0 then defaultVal else val

theorem parseIntOrDefault_pos (s : String) (d : Int) (hd : 0 < d) :
    0 < parseIntOrDefault s d := by
  unfold parseIntOrDefault
  cases sscanfD s with
  | none => exact hd
  | some v =>
    by_cases h : v ≤ 0
    · simp [h, hd]
    · simp [h]
      omega

/-- From `auth.go` lines 301-309: `parseExpiration` computes `ExpiresAt` from the
`expires_on` Unix-timestamp field when it is non-empty (`Sscanf` errors are
ignored, leaving the scanned value at 0), and otherwise defaults to one hour
from now.  The `expires_in` field is not consulted. -/
def parseExpiration (now : Int) (t : TokenResponse) : TokenResponse :=
  if t.expiresOn ≠ "" then
    { t with expiresAt := (sscanfD t.expiresOn).getD 0 }
  else
    { t with expiresAt := now + 3600 }

/-- From `auth.go` lines 294-299: `isTokenValid` — valid iff `now` is strictly
before `ExpiresAt` minus a 5-minute (300 s) skew; `false` when no token is
loaded. -/
def isTokenValid (tokens : Option TokenResponse) (now : Int) : Bool :=
  match tokens with
  | none => false
  | some t => decide (now < t.expiresAt - 300)

/-! ### Device-code poll loop (`auth.go` lines 157-217)

One token-redemption HTTP exchange (`redeemDeviceCode`) is abstracted by its
classified outcome: a transport/read failure, a body whose JSON `error` field
is non-empty, a body that does not parse as a `TokenResponse`, or a parsed
token body. -/

/-- Outcome of one `POST`+read+classify exchange against the token endpoint. -/
inductive RedeemOutcome where
  /-- Case where `postForm` or `io.ReadAll` returned an error with this message. -/
  | transportErr (msg : String)
  /-- Body parsed with a non-empty JSON `error` field (`code` is non-empty). -/
  | errBody (code desc : String)
  /-- Body with no `error` field that fails to parse as `TokenResponse`. -/
  | parseErr (msg : String)
  /-- Body parsed as a `TokenResponse` (with no `error` field). -/
  | body (t : TokenResponse)
  deriving Repr, DecidableEq

/-- From `auth.go` lines 181-217: `redeemDeviceCode` — transport errors propagate
as-is; an error body becomes `"code: description"`; an unparseable body
becomes a `parse tokens:` error; a token body without an access token becomes
`"no access token in response"`; otherwise the tokens are returned. -/
def redeemDeviceCode : RedeemOutcome → Except String TokenResponse
  | .transportErr msg => .error msg
  | .errBody code desc => .error (code ++ ": " ++ desc)
  | .parseErr msg => .error ("parse tokens: " ++ msg)
  | .body t =>
    if t.accessToken = "" then .error "no access token in response"
    else .ok t

deriving instance DecidableEq for Except

/-- Result of a `pollForToken` run: the returned value or error, the
wall-clock instant at which the function returns, and the number of
token-redemption requests it performed. -/
structure PollOutcome where
  result : Except String TokenResponse
  endTime : Nat
  requests : Nat
  deriving Repr, DecidableEq

/-- From `auth.go` line 177: the timeout error message. -/
def timeoutMsg (expiresIn : Nat) : String :=
  "authentication timed out after " ++ toString expiresIn ++ " seconds"

/-- From `auth.go` lines 163-177: the poll loop.  While `now < deadline`: sleep
`interval` seconds, issue one redemption request (consuming the next entry of
`responses`), continue on an `authorization_pending` error, return any other
error, return tokens on success.  When the loop condition fails, return the
timeout error.  `none` means the supplied trace ran out before the loop
finished (an under-specified environment, never reached in the theorems). -/
def pollLoop (interval expiresIn deadline now : Nat)
    (responses : List RedeemOutcome) : Option PollOutcome :=
  if now < deadline then
    match responses with
    | [] => none
    | r :: rest =>
      match redeemDeviceCode r with
      | .ok tok => some ⟨.ok tok, now + interval, 1⟩
      | .error e =>
        if strContains e "authorization_pending" then
          match pollLoop interval expiresIn deadline (now + interval) rest with
          | none => none
          | some o => some ⟨o.result, o.endTime, o.requests + 1⟩
        else
          some ⟨.error e, now + interval, 1⟩
  else
    some ⟨.error (timeoutMsg expiresIn), now, 0⟩

/-- From `auth.go` lines 158-178: `pollForToken` — interval and session lifetime
are scanned from the device-code response with defaults 5 s and 900 s; the
deadline is `start + expiresIn`. -/
def pollForToken (dc : DeviceCodeResponse) (start : Nat)
    (responses : List RedeemOutcome) : Option PollOutcome :=
  let interval := (parseIntOrDefault dc.interval 5).toNat
  let expiresIn := (parseIntOrDefault dc.expiresIn 900).toNat
  pollLoop interval expiresIn (start + expiresIn) start responses

/-- The scanned interval and lifetime are always positive. -/
theorem parseIntOrDefault_toNat_pos (s : String) (d : Int) (hd : 0 < d) :
    0 < (parseIntOrDefault s d).toNat := by
  have h := parseIntOrDefault_pos s d hd
  omega

/-- The `"code: description"` message built from an `authorization_pending`
error body contains the substring `authorization_pending`. -/
theorem strContains_pending (d : String) :
    strContains ("authorization_pending" ++ ": " ++ d) "authorization_pending" = true := by
  unfold strContains
  rw [data_append, data_append, List.append_assoc]
  exact hasSubstr_of_isPrefixOf _ _ (isPrefixOf_append_self _ _)

/-- Loop-level form of C1: after `descs.length` pending responses, a token
body with a non-empty access token is returned, one request per response. -/
theorem pollLoop_pending_then_success (interval expiresIn deadline : Nat)
    (tok : TokenResponse) (htok : tok.accessToken ≠ "") :
    ∀ (descs : List String) (now : Nat),
      now + descs.length * interval < deadline →
      pollLoop interval expiresIn deadline now
        (descs.map (fun d => RedeemOutcome.errBody "authorization_pending" d)
          ++ [RedeemOutcome.body tok])
        = some ⟨Except.ok tok, now + (descs.length + 1) * interval, descs.length + 1⟩ := by
  intro descs
  induction descs with
  | nil =>
    intro now hlt
    simp only [List.length_nil, Nat.zero_mul, Nat.add_zero] at hlt
    unfold pollLoop
    simp [hlt, redeemDeviceCode, htok]
  | cons d ds ih =>
    intro now hlt
    have hnow : now < deadline := by
      have : now ≤ now + (d :: ds).length * interval := Nat.le_add_right _ _
      omega
    have hrec : (now + interval) + ds.length * interval < deadline := by
      simp only [List.length_cons] at hlt
      have : now + (ds.length + 1) * interval = now + interval + ds.length * interval := by ring
      omega
    have := ih (now + interval) hrec
    unfold pollLoop
    simp only [List.map_cons, List.cons_append, hnow, if_true, redeemDeviceCode,
      strContains_pending, if_pos]
    rw [this]
    simp only [List.length_cons]
    have heq : now + interval + (ds.length + 1) * interval
        = now + (ds.length + 1 + 1) * interval := by ring
    rw [heq]

/-- Loop-level form of C2: with only pending responses, and enough of them to
reach the deadline, the loop returns the timeout error at an instant in
`[deadline, deadline + interval)`. -/
theorem pollLoop_all_pending (interval expiresIn deadline : Nat) :
    ∀ (descs : List String) (now : Nat),
      now < deadline + interval →
      deadline ≤ now + descs.length * interval →
      ∃ o, pollLoop interval expiresIn deadline now
          (descs.map (fun d => RedeemOutcome.errBody "authorization_pending" d)) = some o ∧
        o.result = Except.error (timeoutMsg expiresIn) ∧
        deadline ≤ o.endTime ∧ o.endTime < deadline + interval := by
  intro descs
  induction descs with
  | nil =>
    intro now hub hlb
    simp only [List.length_nil, Nat.zero_mul, Nat.add_zero] at hlb
    have hnot : ¬ now < deadline := by omega
    refine ⟨⟨Except.error (timeoutMsg expiresIn), now, 0⟩, ?_, rfl, hlb, hub⟩
    unfold pollLoop
    simp [hnot]
  | cons d ds ih =>
    intro now hub hlb
    by_cases hnow : now < deadline
    · have hub' : now + interval < deadline + interval := by omega
      have hlb' : deadline ≤ (now + interval) + ds.length * interval := by
        simp only [List.length_cons] at hlb
        have : now + (ds.length + 1) * interval = now + interval + ds.length * interval := by
          ring
        omega
      obtain ⟨o, ho, hres, hlo, hhi⟩ := ih (now + interval) hub' hlb'
      refine ⟨⟨o.result, o.endTime, o.requests + 1⟩, ?_, hres, hlo, hhi⟩
      unfold pollLoop
      simp only [List.map_cons, hnow, if_true, redeemDeviceCode, strContains_pending,
        if_pos]
      rw [ho]
    · have hdl : deadline ≤ now := by omega
      refine ⟨⟨Except.error (timeoutMsg expiresIn), now, 0⟩, ?_, rfl, hdl, hub⟩
      unfold pollLoop
      simp [hnow]

/-- C1: given N `authorization_pending` responses followed by a success
response carrying a non-empty access token, with the session deadline far
enough away for all N+1 polls, `pollForToken` performs exactly N+1 redemption
requests and returns the success credential. -/
theorem pollForToken_pending_then_success (dc : DeviceCodeResponse) (start : Nat)
    (descs : List String) (tok : TokenResponse) (htok : tok.accessToken ≠ "")
    (hd : (descs.length + 1) * (parseIntOrDefault dc.interval 5).toNat
            ≤ (parseIntOrDefault dc.expiresIn 900).toNat) :
    pollForToken dc start
      (descs.map (fun d => RedeemOutcome.errBody "authorization_pending" d)
        ++ [RedeemOutcome.body tok])
      = some ⟨Except.ok tok,
              start + (descs.length + 1) * (parseIntOrDefault dc.interval 5).toNat,
              descs.length + 1⟩ := by
  have hi : 0 < (parseIntOrDefault dc.interval 5).toNat :=
    parseIntOrDefault_toNat_pos _ _ (by norm_num)
  unfold pollForToken
  apply pollLoop_pending_then_success _ _ _ _ htok
  have hlt : descs.length * (parseIntOrDefault dc.interval 5).toNat
      < (descs.length + 1) * (parseIntOrDefault dc.interval 5).toNat :=
    (Nat.mul_lt_mul_right hi).mpr (Nat.lt_succ_self descs.length)
  omega

/-- C1 witness: two pending responses then success, interval 1 s, session
lifetime 10 s. -/
theorem pollForToken_pending_then_success_witness :
    pollForToken ⟨"dev", "usr", "http://v", "", "10", "1", ""⟩ 0
      (["a", "b"].map (fun d => RedeemOutcome.errBody "authorization_pending" d)
        ++ [RedeemOutcome.body ⟨"tok", "ref", "Bearer", "3600", "99", "r", "", 0⟩])
      = some ⟨Except.ok ⟨"tok", "ref", "Bearer", "3600", "99", "r", "", 0⟩, 3, 3⟩ :=
  pollForToken_pending_then_success _ _ _ _ (by decide) (by decide)

/-- C2: when every redemption attempt yields `authorization_pending` and the
supplied responses cover the whole session lifetime, `pollForToken` returns
the timeout error, terminating at an instant between the deadline and the
deadline plus one poll interval. -/
theorem pollForToken_all_pending_times_out (dc : DeviceCodeResponse) (start : Nat)
    (descs : List String)
    (hlen : (parseIntOrDefault dc.expiresIn 900).toNat
              ≤ descs.length * (parseIntOrDefault dc.interval 5).toNat) :
    ∃ o, pollForToken dc start
        (descs.map (fun d => RedeemOutcome.errBody "authorization_pending" d)) = some o ∧
      o.result = Except.error (timeoutMsg (parseIntOrDefault dc.expiresIn 900).toNat) ∧
      start + (parseIntOrDefault dc.expiresIn 900).toNat ≤ o.endTime ∧
      o.endTime < start + (parseIntOrDefault dc.expiresIn 900).toNat
                    + (parseIntOrDefault dc.interval 5).toNat := by
  have hi : 0 < (parseIntOrDefault dc.interval 5).toNat :=
    parseIntOrDefault_toNat_pos _ _ (by norm_num)
  unfold pollForToken
  exact pollLoop_all_pending _ _ _ descs start (by omega) (by omega)

/-- C2 witness: three pending responses, interval 1 s, lifetime 3 s. -/
theorem pollForToken_all_pending_times_out_witness :
    ∃ o, pollForToken ⟨"dev", "usr", "http://v", "", "3", "1", ""⟩ 5
        (["a", "b", "c"].map (fun d => RedeemOutcome.errBody "authorization_pending" d))
        = some o ∧
      o.result = Except.error (timeoutMsg (parseIntOrDefault "3" 900).toNat) ∧
      5 + (parseIntOrDefault "3" 900).toNat ≤ o.endTime ∧
      o.endTime < 5 + (parseIntOrDefault "3" 900).toNat + (parseIntOrDefault "1" 5).toNat :=
  pollForToken_all_pending_times_out _ _ _ (by decide)

/-- C3 counterexample: a transport error on the first redemption attempt
(with a success response available right after, and 9 s of session lifetime
left) terminates `pollForToken` with that error after a single request — the
network error is not retried within the loop. -/
theorem pollForToken_transport_error_not_retried :
    pollForToken ⟨"dev", "usr", "http://v", "", "10", "1", ""⟩ 0
      [RedeemOutcome.transportErr "connection refused",
       RedeemOutcome.body ⟨"tok", "ref", "Bearer", "3600", "99", "r", "", 0⟩]
      = some ⟨Except.error "connection refused", 1, 1⟩ := by
  decide

/-- C3 amended: every redemption error whose message does not contain
`authorization_pending` — transport errors included — terminates the poll
loop immediately and is returned to the caller; only `authorization_pending`
responses are retried. -/
theorem pollForToken_nonpending_error_terminates (dc : DeviceCodeResponse)
    (start : Nat) (r : RedeemOutcome) (rest : List RedeemOutcome) (e : String)
    (hr : redeemDeviceCode r = Except.error e)
    (hnp : strContains e "authorization_pending" = false) :
    pollForToken dc start (r :: rest)
      = some ⟨Except.error e, start + (parseIntOrDefault dc.interval 5).toNat, 1⟩ := by
  have he : 0 < (parseIntOrDefault dc.expiresIn 900).toNat :=
    parseIntOrDefault_toNat_pos _ _ (by norm_num)
  have hlt : start < start + (parseIntOrDefault dc.expiresIn 900).toNat := by omega
  unfold pollForToken pollLoop
  simp [hlt, hr, hnp]

/-- C3 amended witness: a lone transport error is returned after one poll. -/
theorem pollForToken_nonpending_error_terminates_witness :
    pollForToken ⟨"dev", "usr", "http://v", "", "10", "1", ""⟩ 0
      [RedeemOutcome.transportErr "dial tcp: connection refused"]
      = some ⟨Except.error "dial tcp: connection refused", 1, 1⟩ :=
  pollForToken_nonpending_error_terminates _ _ _ _ _ (by decide) (by decide)

/-- C4 counterexample: with `expires_on` empty and `expires_in = "100"`, the
code sets the default 1-hour expiry (3600 s from now) instead of using the
relative `expires_in` field as the claim states. -/
theorem parseExpiration_ignores_expiresIn :
    (parseExpiration 0 ⟨"tok", "ref", "Bearer", "100", "", "r", "", 0⟩).expiresAt = 3600 ∧
    (parseExpiration 0 ⟨"tok", "ref", "Bearer", "100", "", "r", "", 0⟩).expiresAt ≠ 0 + 100 := by
  decide

/-- The expiry rule the code actually implements, stated independently: the
absolute `expires_on` field when non-empty (scanned, 0 on scan failure),
otherwise a 1-hour default; the relative `expires_in` field is never used. -/
def expiresAtSpec (now : Int) (t : TokenResponse) : Int :=
  if t.expiresOn = "" then now + 3600 else (sscanfD t.expiresOn).getD 0

/-- C4 amended: `expiresAt` is always set, to the absolute `expires_on` value
when that field is non-empty and to a 1-hour default otherwise; the
`expires_in` field is never consulted (changing it never changes the computed
expiry). -/
theorem parseExpiration_spec (now : Int) (t : TokenResponse) (s : String) :
    (parseExpiration now t).expiresAt = expiresAtSpec now t ∧
    (parseExpiration now { t with expiresIn := s }).expiresAt
      = (parseExpiration now t).expiresAt := by
  unfold parseExpiration expiresAtSpec
  by_cases h : t.expiresOn = "" <;> simp [h]

/-- C5: for every credential, `isTokenValid` returns true iff `now` is
strictly before `expiresAt` minus the fixed 300-second (5-minute) skew. -/
theorem isTokenValid_iff (t : TokenResponse) (now : Int) :
    isTokenValid (some t) now = true ↔ now < t.expiresAt - 300 := by
  simp [isTokenValid]

/-! ### Token refresh and `GetTokens` (`auth.go` lines 48-68 and 224-261)

The mutable fields of the `Authenticator` relevant here are the in-memory
`a.tokens` pointer and the persisted `tokens.json` file; the file is
modelled by the credential it parses to (`none` for missing/malformed). -/

/-- In-memory and persisted credential state of the `Authenticator`. -/
structure AuthState where
  tokens : Option TokenResponse
  stored : Option TokenResponse
  deriving Repr, DecidableEq

/-- Outcome of the refresh HTTP exchange (`postForm` + read + unmarshal).
`refresh` has no error-body check: an identity-platform error body parses as
a `TokenResponse` with an empty access token. -/
inductive RefreshOutcome where
  /-- Case where `postForm` or `io.ReadAll` returned an error with this message. -/
  | transportErr (msg : String)
  /-- The body failed to unmarshal as a `TokenResponse`. -/
  | parseErr (msg : String)
  /-- The body parsed as a `TokenResponse`. -/
  | body (t : TokenResponse)
  deriving Repr, DecidableEq

/-- From `auth.go` lines 224-261: `refresh` — transport/read/parse failures and
bodies without an access token return an error and leave the state alone; on
success the in-memory credential is replaced (with expiry recomputed) and is
persisted when the save succeeds (a save failure is only a warning). -/
def refresh (st : AuthState) (now : Int) (o : RefreshOutcome) (saveOk : Bool) :
    Except String TokenResponse × AuthState :=
  match o with
  | .transportErr msg => (.error msg, st)
  | .parseErr msg => (.error msg, st)
  | .body t =>
    if t.accessToken = "" then (.error "no access token in refresh response", st)
    else
      let t' := parseExpiration now t
      (.ok t', { tokens := some t', stored := if saveOk then some t' else st.stored })

/-- How a `GetTokens` call resolves before any device-code flow runs. -/
inductive GetTokensStep where
  /-- Cached token still valid: returned as-is. -/
  | cached (t : TokenResponse)
  /-- Cached token expired, refresh succeeded: refreshed token returned. -/
  | refreshed (t : TokenResponse)
  /-- No usable cache and no successful refresh: fall through to
  `deviceCodeAuth`. -/
  | deviceFlow
  deriving Repr, DecidableEq

/-- From `auth.go` lines 48-68 up to the fallback: load the persisted credential
(failure means no cache), return it if still valid, otherwise try `refresh`
when a refresh token is present, and fall through to the device-code flow on
any failure. -/
def getTokensStep (st0 : AuthState) (now : Int) (ro : RefreshOutcome)
    (saveOk : Bool) : GetTokensStep × AuthState :=
  match st0.stored with
  | none => (.deviceFlow, st0)
  | some t =>
    let st1 : AuthState := { st0 with tokens := some t }
    if isTokenValid st1.tokens now then (.cached t, st1)
    else if t.refreshToken ≠ "" then
      match refresh st1 now ro saveOk with
      | (.ok t', st2) => (.refreshed t', st2)
      | (.error _, st2) => (.deviceFlow, st2)
    else (.deviceFlow, st1)

/-- From `auth.go` lines 48-68: `GetTokens`, with the device-code flow abstracted
as a state transformer `deviceCodeAuth` invoked only on fall-through. -/
def getTokens (st0 : AuthState) (now : Int) (ro : RefreshOutcome) (saveOk : Bool)
    (deviceCodeAuth : AuthState → Except String TokenResponse × AuthState) :
    Except String TokenResponse × AuthState :=
  match getTokensStep st0 now ro saveOk with
  | (.cached t, st) => (.ok t, st)
  | (.refreshed t, st) => (.ok t, st)
  | (.deviceFlow, st) => deviceCodeAuth st

/-- A failed refresh leaves the authenticator state untouched. -/
theorem refresh_failure_preserves_state (st : AuthState) (now : Int)
    (o : RefreshOutcome) (saveOk : Bool) (e : String)
    (h : (refresh st now o saveOk).1 = Except.error e) :
    (refresh st now o saveOk).2 = st := by
  cases o with
  | transportErr msg => rfl
  | parseErr msg => rfl
  | body t =>
    by_cases ht : t.accessToken = ""
    · simp [refresh, ht]
    · simp [refresh, ht] at h

/-- C6: when the cached credential is expired, carries a refresh token, and
the refresh exchange fails (transport error, unparseable body, or body
without an access token), `GetTokens` neither clears nor modifies the
in-memory and persisted credential and returns the result of the full
device-code flow instead of the refresh error. -/
theorem getTokens_refresh_failure_falls_back (st0 : AuthState) (now : Int)
    (ro : RefreshOutcome) (saveOk : Bool)
    (deviceCodeAuth : AuthState → Except String TokenResponse × AuthState)
    (t : TokenResponse) (e : String)
    (hs : st0.stored = some t)
    (hexp : isTokenValid (some t) now = false)
    (hrt : t.refreshToken ≠ "")
    (hfail : (refresh { st0 with tokens := some t } now ro saveOk).1
               = Except.error e) :
    getTokens st0 now ro saveOk deviceCodeAuth
        = deviceCodeAuth { st0 with tokens := some t } ∧
      (refresh { st0 with tokens := some t } now ro saveOk).2
        = { st0 with tokens := some t } := by
  obtain ⟨tk0, sd0⟩ := st0
  change sd0 = some t at hs
  subst hs
  have hpres := refresh_failure_preserves_state _ now ro saveOk e hfail
  refine ⟨?_, hpres⟩
  dsimp only at hfail hpres ⊢
  rcases hre : refresh ⟨some t, some t⟩ now ro saveOk with ⟨res, st2⟩
  rw [hre] at hfail hpres
  dsimp only at hfail hpres
  subst hfail
  subst hpres
  unfold getTokens getTokensStep
  simp [hexp, hrt, hre]

/-- C6 witness: an expired cached credential with a refresh token, a refresh
that fails in transport, and a device flow producing a fresh token. -/
theorem getTokens_refresh_failure_falls_back_witness :
    getTokens ⟨none, some ⟨"old", "ref", "Bearer", "3600", "99", "r", "", 1000⟩⟩ 5000
        (RefreshOutcome.transportErr "connection reset") true
        (fun st => (Except.ok ⟨"new", "ref2", "Bearer", "3600", "99", "r", "", 9000⟩, st))
        = (Except.ok ⟨"new", "ref2", "Bearer", "3600", "99", "r", "", 9000⟩,
           ⟨some ⟨"old", "ref", "Bearer", "3600", "99", "r", "", 1000⟩,
            some ⟨"old", "ref", "Bearer", "3600", "99", "r", "", 1000⟩⟩) ∧
      (refresh ⟨some ⟨"old", "ref", "Bearer", "3600", "99", "r", "", 1000⟩,
                some ⟨"old", "ref", "Bearer", "3600", "99", "r", "", 1000⟩⟩ 5000
          (RefreshOutcome.transportErr "connection reset") true).2
        = ⟨some ⟨"old", "ref", "Bearer", "3600", "99", "r", "", 1000⟩,
           some ⟨"old", "ref", "Bearer", "3600", "99", "r", "", 1000⟩⟩ :=
  getTokens_refresh_failure_falls_back _ _ _ _ _ _ "connection reset"
    (by decide) (by decide) (by decide) (by decide)

/-! ### Pagination (`internal/graph/client.go` lines 90-155)

`getPage` is abstracted by its classified outcome per request: a parsed page
(the `value` array plus the `@odata.nextLink` cursor, empty when absent) or
an error (transport failure, status ≥ 400, read or parse failure).  Records
are opaque (`json.RawMessage`), so the record type is a parameter. -/

/-- Outcome of one `getPage` request. -/
inductive PageResult (α : Type) where
  /-- Successful response parsed: the `value` records and the next-page link. -/
  | ok (records : List α) (next : String)
  /-- Transport error, status ≥ 400, or read/parse failure. -/
  | err (msg : String)
  deriving Repr, DecidableEq

/-- Result of a `GetAllPages` run: accumulated records, the error if one
stopped the walk, the number of page requests issued, and the number of
inter-page rate-limit sleeps performed. -/
structure PagesOutcome (α : Type) where
  results : List α
  error : Option String
  requests : Nat
  delays : Nat
  deriving Repr, DecidableEq

/-- From `client.go` lines 96-114: the pagination loop.  While the next link is
non-empty: stop when the positive `maxResults` cap is reached; fetch the next
page (consuming one entry of `trace`); on error return the accumulated
records with the error; otherwise append the records, and sleep only when
another page follows.  `none` means the trace ran out (an under-specified
environment, never reached in the theorems). -/
def getAllPagesLoop {α : Type} (maxResults : Int) (acc : List α)
    (nextLink : String) (trace : List (PageResult α)) : Option (PagesOutcome α) :=
  if nextLink = "" then some ⟨acc, none, 0, 0⟩
  else if 0 < maxResults ∧ maxResults ≤ (acc.length : Int) then some ⟨acc, none, 0, 0⟩
  else
    match trace with
    | [] => none
    | .err msg :: _ => some ⟨acc, some msg, 1, 0⟩
    | .ok recs next :: rest =>
      if next = "" then some ⟨acc ++ recs, none, 1, 0⟩
      else
        match getAllPagesLoop maxResults (acc ++ recs) next rest with
        | none => none
        | some o => some ⟨o.results, o.error, o.requests + 1, o.delays + 1⟩

/-- From `client.go` lines 92-117: `GetAllPages` — the walk starts at the base URL
plus the endpoint with an empty accumulator. -/
def getAllPages {α : Type} (endpoint : String) (maxResults : Int)
    (trace : List (PageResult α)) : Option (PagesOutcome α) :=
  getAllPagesLoop maxResults [] (graphBaseURL ++ endpoint) trace

/-- The initial link is never empty: the Graph base URL is a fixed non-empty
string. -/
theorem graphBaseURL_append_ne_empty (endpoint : String) :
    graphBaseURL ++ endpoint ≠ "" := by
  intro h
  have hd := congrArg String.data h
  rw [data_append] at hd
  simp [graphBaseURL] at hd

/-- Loop-level form of C7: an uncapped walk over pages whose cursors are all
non-empty except the last returns every record in order, one request per page
and one sleep per followed cursor. -/
theorem getAllPagesLoop_chain {α : Type} (front : List (List α × String))
    (lastRecs : List α) (hfront : ∀ p ∈ front, p.2 ≠ "") :
    ∀ (acc : List α) (link : String), link ≠ "" →
      getAllPagesLoop 0 acc link
          (front.map (fun p => PageResult.ok p.1 p.2) ++ [PageResult.ok lastRecs ""])
        = some ⟨acc ++ (front.map Prod.fst).flatten ++ lastRecs, none,
                front.length + 1, front.length⟩ := by
  induction front with
  | nil =>
    intro acc link hlink
    unfold getAllPagesLoop
    simp [hlink]
  | cons p fr ih =>
    intro acc link hlink
    have hp : p.2 ≠ "" := hfront p (List.mem_cons_self p fr)
    have hfr : ∀ q ∈ fr, q.2 ≠ "" := fun q hq => hfront q (List.mem_cons_of_mem p hq)
    unfold getAllPagesLoop
    simp only [List.map_cons, List.cons_append, if_neg hlink,
      if_neg (show ¬(0 < (0 : Int) ∧ (0 : Int) ≤ (acc.length : Int)) from by omega),
      if_neg hp]
    rw [ih hfr (acc ++ p.1) p.2 hp]
    simp only [List.map_cons, List.flatten_cons, List.length_cons]
    refine congrArg some ?_
    simp [List.append_assoc]

/-- C7: with no `maxResults` cap, a server exposing `front.length + 1`
cursor-linked pages yields the concatenation of all pages' records in page
order, one request per page, with exactly `front.length` inter-page delays
and no delay after the final page. -/
theorem getAllPages_all_pages {α : Type} (endpoint : String)
    (front : List (List α × String)) (lastRecs : List α)
    (hfront : ∀ p ∈ front, p.2 ≠ "") :
    getAllPages endpoint 0
        (front.map (fun p => PageResult.ok p.1 p.2) ++ [PageResult.ok lastRecs ""])
      = some ⟨(front.map Prod.fst).flatten ++ lastRecs, none,
              front.length + 1, front.length⟩ := by
  unfold getAllPages
  rw [getAllPagesLoop_chain front lastRecs hfront [] _
        (graphBaseURL_append_ne_empty endpoint)]
  simp

/-- C7 witness: a 3-page server returning `[1,2]`, `[3]`, `[4]` with two
non-empty cursors yields all records in order with 3 requests and 2 delays. -/
theorem getAllPages_all_pages_witness :
    getAllPages "/users" 0
        (([([1, 2], "c1"), ([3], "c2")] : List (List Nat × String)).map
            (fun p => PageResult.ok p.1 p.2) ++ [PageResult.ok [4] ""])
      = some ⟨[1, 2, 3, 4], none, 3, 2⟩ :=
  getAllPages_all_pages _ _ _ (by decide)

/-- Loop-level form of C8: a failing page request ends the walk with the
records gathered so far and the error, requesting nothing further. -/
theorem getAllPagesLoop_error_keeps_acc {α : Type} (front : List (List α × String))
    (msg : String) (rest : List (PageResult α)) (hfront : ∀ p ∈ front, p.2 ≠ "") :
    ∀ (acc : List α) (link : String), link ≠ "" →
      getAllPagesLoop 0 acc link
          (front.map (fun p => PageResult.ok p.1 p.2) ++ PageResult.err msg :: rest)
        = some ⟨acc ++ (front.map Prod.fst).flatten, some msg,
                front.length + 1, front.length⟩ := by
  induction front with
  | nil =>
    intro acc link hlink
    unfold getAllPagesLoop
    simp [hlink]
  | cons p fr ih =>
    intro acc link hlink
    have hp : p.2 ≠ "" := hfront p (List.mem_cons_self p fr)
    have hfr : ∀ q ∈ fr, q.2 ≠ "" := fun q hq => hfront q (List.mem_cons_of_mem p hq)
    unfold getAllPagesLoop
    simp only [List.map_cons, List.cons_append, if_neg hlink,
      if_neg (show ¬(0 < (0 : Int) ∧ (0 : Int) ≤ (acc.length : Int)) from by omega),
      if_neg hp]
    rw [ih hfr (acc ++ p.1) p.2 hp]
    simp only [List.map_cons, List.flatten_cons, List.length_cons]
    refine congrArg some ?_
    simp [List.append_assoc]

/-- C8: when the request for the page after `front` fails, `GetAllPages`
returns the records accumulated from all earlier successful pages together
with that page's error, and requests no further page (whatever the server
would have gone on to serve). -/
theorem getAllPages_error_keeps_acc {α : Type} (endpoint msg : String)
    (front : List (List α × String)) (rest : List (PageResult α))
    (hfront : ∀ p ∈ front, p.2 ≠ "") :
    getAllPages endpoint 0
        (front.map (fun p => PageResult.ok p.1 p.2) ++ PageResult.err msg :: rest)
      = some ⟨(front.map Prod.fst).flatten, some msg,
              front.length + 1, front.length⟩ := by
  unfold getAllPages
  rw [getAllPagesLoop_error_keeps_acc front msg rest hfront [] _
        (graphBaseURL_append_ne_empty endpoint)]
  simp

/-- C8 witness: page 2 of a 3-page sequence fails; page 1's records come back
with the error after exactly 2 requests. -/
theorem getAllPages_error_keeps_acc_witness :
    getAllPages "/users" 0
        (([([1], "c1")] : List (List Nat × String)).map
            (fun p => PageResult.ok p.1 p.2)
          ++ PageResult.err "API error 500: boom" :: [PageResult.ok [9] ""])
      = some ⟨[1], some "API error 500: boom", 2, 1⟩ :=
  getAllPages_error_keeps_acc _ _ _ _ (by decide)

/-- C9: with `0 < maxResults ≤` the first page's record count, `GetAllPages`
issues exactly one page request and returns the whole first page — at least
`maxResults` records, untruncated (one courtesy sleep still happens when the
first page carries a cursor). -/
theorem getAllPages_maxResults_first_page {α : Type} (endpoint : String)
    (m : Int) (recs : List α) (next : String) (rest : List (PageResult α))
    (hm : 0 < m) (hlen : m ≤ (recs.length : Int)) :
    getAllPages endpoint m (PageResult.ok recs next :: rest)
      = some ⟨recs, none, 1, if next = "" then 0 else 1⟩ := by
  unfold getAllPages getAllPagesLoop
  rw [if_neg (graphBaseURL_append_ne_empty endpoint)]
  simp only [List.length_nil, Nat.cast_zero,
    show ¬(0 < m ∧ m ≤ (0 : Int)) from by omega, if_false]
  by_cases hnext : next = ""
  · simp [hnext]
  · rw [if_neg hnext]
    unfold getAllPagesLoop
    rw [if_neg hnext]
    simp only [List.nil_append,
      show (0 < m ∧ m ≤ (recs.length : Int)) from ⟨hm, hlen⟩, if_true]
    simp [hnext]

/-- C9 witness: `maxResults = 2` with a 3-record first page carrying a
cursor: one request, all 3 records returned. -/
theorem getAllPages_maxResults_first_page_witness :
    getAllPages "/users" 2
        (PageResult.ok ([1, 2, 3] : List Nat) "c1" :: [PageResult.ok [9] ""])
      = some ⟨[1, 2, 3], none, 1, 1⟩ := by
  have h := getAllPages_maxResults_first_page "/users" 2 ([1, 2, 3] : List Nat)
    "c1" [PageResult.ok [9] ""] (by decide) (by decide)
  simpa using h

/-- C10: `GetVerificationURL` returns the v1.0 `verification_url` field when
it is non-empty and the v2.0 `verification_uri` field otherwise; its result
is empty only when both fields are empty. -/
theorem getVerificationURL_spec (d : DeviceCodeResponse) :
    d.getVerificationURL
        = (if d.verificationURL = "" then d.verificationURI else d.verificationURL) ∧
    (d.getVerificationURL = "" ↔ d.verificationURL = "" ∧ d.verificationURI = "") := by
  unfold DeviceCodeResponse.getVerificationURL
  by_cases h : d.verificationURL = "" <;> simp [h]

end Azonk
